import Mathlib

/-!
Shallow embedding of the asbhive-alumni profile-ingestion pipeline.

Source files modelled:
- `server/ai.js` (mock summarizer `generateSummary` with its keyword helpers),
- `server/scraper.js` (field extraction: title/company split, education list),
- `server/index.js` (job controller `processScrapingJob`, upload and scrape
  endpoints, `isValidLinkedInUrl`).

JavaScript strings are modelled as Lean `String`; character indices and
lengths count characters.  `Math.random()` draws are made explicit as a
`Fin 4` argument; `Date.now()`-derived ids and timestamps are outside the
pure model and omitted from the record types.
-/

namespace AsbHive

/-- JS `s.substring(0, n)`: the first `n` characters of `s`. -/
def jsTake (s : String) (n : Nat) : String :=
  ⟨s.data.take n⟩

/-- JS string `||`: the left operand unless it is the empty string (falsy). -/
def jsOr (a b : String) : String :=
  if a = "" then b else a

/-- JS `Array.prototype.join(sep)`. -/
def joinSep (sep : String) : List String → String
  | [] => ""
  | [a] => a
  | a :: b :: rest => a ++ sep ++ joinSep sep (b :: rest)

/-- Boolean test that the first character list starts with the second. -/
def charsBeginWith : List Char → List Char → Bool
  | [], _ => true
  | _ :: _, [] => false
  | a :: as, b :: bs => a == b && charsBeginWith as bs

/-- Boolean test that the needle occurs contiguously in the haystack. -/
def charsContain : List Char → List Char → Bool
  | [], needle => needle.isEmpty
  | h :: tail, needle => charsBeginWith needle (h :: tail) || charsContain tail needle

/-- JS `s.toLowerCase()` (per-character lowering). -/
def jsLower (s : String) : String :=
  ⟨s.data.map Char.toLower⟩

/-- JS `s.trim()`: strip whitespace from both ends. -/
def jsTrim (s : String) : String :=
  ⟨((s.data.dropWhile Char.isWhitespace).reverse.dropWhile
      Char.isWhitespace).reverse⟩

/-- Fuel-driven splitter over character lists; the fuel strictly exceeds the
input length, so the zero-fuel arm is never reached for the wrapper below. -/
def splitAux (sep : List Char) : Nat → List Char → List Char → List (List Char)
  | _, acc, [] => [acc.reverse]
  | 0, acc, rest => [acc.reverse ++ rest]
  | fuel + 1, acc, c :: cs =>
      if charsBeginWith sep (c :: cs) then
        acc.reverse :: splitAux sep fuel [] ((c :: cs).drop sep.length)
      else
        splitAux sep fuel (c :: acc) cs

/-- JS `s.split(sep)` for a non-empty separator (every separator in the
source is a non-empty literal); with an empty separator behaves like no
split. -/
def jsSplit (sep : String) (s : String) : List String :=
  if sep.data = [] then [s]
  else (splitAux sep.data (s.data.length + 1) [] s.data).map (fun l => ⟨l⟩)

/-- JS `s.startsWith(pre)`. -/
def strBegins (s pre : String) : Bool :=
  charsBeginWith pre.data s.data

/-- JS `text.toLowerCase().includes(needle.toLowerCase())`. -/
def containsCI (text needle : String) : Bool :=
  charsContain (jsLower text).data (jsLower needle).data

/-! ## `server/ai.js`: mock summarizer -/

/-- Keyword vocabulary from `extractKeywords` in `server/ai.js`. -/
def keywords : List String :=
  ["management", "leadership", "strategy", "innovation", "technology",
   "business development", "operations", "marketing", "finance", "consulting",
   "product management", "project management", "team building", "analytics"]

/-- `extractKeywords` from `server/ai.js`: keywords present in the text
(case-insensitive), first three, defaulting when none match. -/
def extractKeywords (text : String) : List String :=
  let found := keywords.filter (fun k => containsCI text k)
  if 0 < found.length then found.take 3
  else ["business", "professional development"]

/-- Industry vocabulary from `extractIndustryTerms` in `server/ai.js`. -/
def industries : List String :=
  ["technology", "finance", "healthcare", "education", "consulting",
   "manufacturing", "retail", "telecommunications", "energy", "media"]

/-- `extractIndustryTerms` from `server/ai.js`: the first industry present in
the text, defaulting to "business". -/
def extractIndustryTerms (text : String) : String :=
  (industries.find? (fun k => containsCI text k)).getD "business"

/-- Skill vocabulary from `extractSkills` in `server/ai.js`. -/
def skills : List String :=
  ["leadership", "strategy", "innovation", "management", "analysis",
   "communication", "problem solving", "team collaboration", "planning"]

/-- `extractSkills` from `server/ai.js`: skills present in the text, first
two, defaulting when none match. -/
def extractSkills (text : String) : List String :=
  let found := skills.filter (fun k => containsCI text k)
  if 0 < found.length then found.take 2
  else ["leadership", "strategy"]

/-- The fixed sentence returned for empty or short about-texts. -/
def genericSummary : String :=
  "Professional with experience in their field."

/-- The `firstSentence` computation inside `generateSummary`: first
period-separated chunk whose trimmed length exceeds 10, trimmed, falling back
(JS `||`) to the first 100 characters of the text. -/
def firstSentence (aboutText : String) : String :=
  let sentences := (jsSplit "." aboutText).filter (fun s => 10 < (jsTrim s).length)
  match sentences with
  | [] => jsTake aboutText 100
  | s :: _ => jsOr (jsTrim s) (jsTake aboutText 100)

/-- The four candidate summary templates of `generateSummary`, indexed by the
`Math.floor(Math.random() * summaries.length)` draw. -/
def summaryTemplate (aboutText : String) : Fin 4 → String
  | ⟨0, _⟩ =>
      "Experienced professional with expertise in " ++
        joinSep ", " (extractKeywords aboutText) ++ "."
  | ⟨1, _⟩ =>
      jsTake (firstSentence aboutText) 80 ++
        "... with proven track record in their industry."
  | ⟨2, _⟩ =>
      "Professional with strong background in " ++
        extractIndustryTerms aboutText ++ " and leadership experience."
  | ⟨3, _⟩ =>
      "Accomplished individual with experience in " ++
        joinSep ", " (extractSkills aboutText) ++ " and strategic thinking."
  | ⟨n + 4, h⟩ => absurd h (by omega)

/-- `generateSummary` from `server/ai.js`.  The guard `!aboutText ||
aboutText.length < 10` collapses to a length test, since the empty string has
length `0`.  The random template choice is the explicit `r` argument; the
`catch` branch of the source is unreachable in this pure model. -/
def generateSummary (aboutText : String) (r : Fin 4) : String :=
  if aboutText.length < 10 then genericSummary
  else summaryTemplate aboutText r

/-! ## `server/scraper.js`: field extraction -/

/-- Title/company split from `scrapeLinkedInProfile` in `server/scraper.js`:
the found title text is split (JS `split`, at every occurrence) on the
literal `" at "`; when the separator occurs, `parts[0]` and `parts[1]` are
trimmed into title and company; otherwise the whole text becomes the title
and the company stays at its empty initial value. -/
def extractTitleCompany (titleText : String) : String × String :=
  match jsSplit " at " titleText with
  | p0 :: p1 :: _ => (jsTrim p0, jsTrim p1)
  | _ => (titleText, "")

/-- Education extraction from `scrapeLinkedInProfile` in `server/scraper.js`:
the trimmed text of each matched element is kept when non-empty and longer than
10 characters, truncated by `substring(0, 200)`. -/
def extractEducation (texts : List String) : List String :=
  texts.filterMap (fun s =>
    let t := jsTrim s
    if !t.isEmpty && decide (10 < t.length) then some (jsTake t 200) else none)

/-! ## `server/index.js`: URL validator

`isValidLinkedInUrl` calls the platform `new URL(url)` inside `try/catch`.
The parser below is an executable model of the WHATWG URL parser restricted
to hierarchical `scheme://host/path` URLs: it lowercases scheme and host,
strips userinfo and port from the authority, cuts the path at a query or
fragment marker, and fails (the `catch` branch) when the scheme separator or
the host is missing. -/

structure UrlParts where
  scheme : String
  hostname : String
  pathname : String
deriving DecidableEq, Repr

/-- Model of the platform WHATWG URL parser for hierarchical URLs. -/
def parseURL (url : String) : Option UrlParts :=
  match jsSplit "://" url with
  | scheme :: rest₀ :: rest =>
    if scheme = "" then none
    else
      let remainder := joinSep "://" (rest₀ :: rest)
      match jsSplit "/" remainder with
      | [] => none
      | auth :: pathSegs =>
        if auth = "" then none
        else
          let hostPort := (jsSplit "@" auth).getLastD ""
          let host := jsLower ((jsSplit ":" hostPort).headD "")
          if host = "" then none
          else
            let rawPath :=
              if pathSegs = [] then "/"
              else "/" ++ joinSep "/" pathSegs
            let path := jsSplit "#" ((jsSplit "?" rawPath).headD rawPath)
            some ⟨jsLower scheme, host, path.headD rawPath⟩
  | _ => none

/-- `isValidLinkedInUrl` from `server/index.js`: well-formed URL with host
exactly `www.linkedin.com`, path starting with `/in/` and longer than
4 characters; `false` when parsing throws. -/
def isValidLinkedInUrl (url : String) : Bool :=
  match parseURL url with
  | none => false
  | some u =>
      u.hostname == "www.linkedin.com" &&
      strBegins u.pathname "/in/" &&
      decide (4 < u.pathname.length)

/-! ## `server/index.js`: job controller -/

inductive JobStatus where
  | pending
  | running
  | completed
  | failed
deriving DecidableEq, Repr

structure Role where
  title : String
  company : String
  years : String
deriving DecidableEq, Repr

/-- Data returned by `scrapeLinkedInProfile` on success. -/
structure ScrapedData where
  name : String
  title : String
  company : String
  location : String
  about : String
  education : List String
  pastRoles : List Role
deriving DecidableEq, Repr

/-- One parsed CSV row kept by the upload endpoint. -/
structure ProfileInput where
  name : String
  linkedin_url : String
deriving DecidableEq, Repr

/-- Outcome of one `scrapeLinkedInProfile` call: the scraper either returns
data or throws with a message. -/
inductive FetchResult where
  | success (data : ScrapedData)
  | failure (errMsg : String)
deriving DecidableEq, Repr

/-- One entry of `job.results` (`Date.now()`-based id and timestamp
omitted). -/
structure AlumniRecord where
  name : String
  title : String
  company : String
  location : String
  education : List String
  summary : String
  linkedinUrl : String
  pastRoles : List Role
  status : String
  error : Option String
deriving DecidableEq, Repr

/-- The job object stored in the `jobs` map (id and timestamps omitted). -/
structure Job where
  status : JobStatus
  totalProfiles : Nat
  processedProfiles : Nat
  successfulProfiles : Nat
  failedProfiles : Nat
  profiles : List ProfileInput
  results : List AlumniRecord
  errors : List String
  currentProfile : Option String
deriving DecidableEq, Repr

/-- The job created by the upload endpoint once the CSV rows are parsed. -/
def mkJob (profiles : List ProfileInput) : Job :=
  { status := .pending
    totalProfiles := profiles.length
    processedProfiles := 0
    successfulProfiles := 0
    failedProfiles := 0
    profiles := profiles
    results := []
    errors := []
    currentProfile := none }

/-- The success-path record assembled in `processScrapingJob`; `r` is the
random draw consumed by `generateSummary`.  The inner `catch` around the
summary call is unreachable since `generateSummary` is total. -/
def successRecord (profile : ProfileInput) (d : ScrapedData) (r : Fin 4) :
    AlumniRecord :=
  let summary := if d.about = "" then "" else generateSummary d.about r
  { name := jsOr d.name (jsOr profile.name "Unknown")
    title := d.title
    company := d.company
    location := d.location
    education := d.education
    summary := jsOr summary "No summary available"
    linkedinUrl := profile.linkedin_url
    pastRoles := d.pastRoles
    status := "success"
    error := none }

/-- The record assembled in the `catch` branch of `processScrapingJob` when
the scraper throws. -/
def failedRecord (profile : ProfileInput) (errMsg : String) : AlumniRecord :=
  { name := jsOr profile.name "Unknown"
    title := ""
    company := ""
    location := ""
    education := []
    summary := ""
    linkedinUrl := profile.linkedin_url
    pastRoles := []
    status := "failed"
    error := some errMsg }

/-- One iteration of the loop in `processScrapingJob`: set `currentProfile`,
handle the scrape outcome (success or the `catch` branch), then increment
`processedProfiles`. -/
def processItem (job : Job) (profile : ProfileInput) (outcome : FetchResult)
    (r : Fin 4) : Job :=
  let job := { job with
    currentProfile := some (jsOr profile.name profile.linkedin_url) }
  let job :=
    match outcome with
    | .success d =>
        { job with
          results := job.results ++ [successRecord profile d r]
          successfulProfiles := job.successfulProfiles + 1 }
    | .failure errMsg =>
        { job with
          results := job.results ++ [failedRecord profile errMsg]
          failedProfiles := job.failedProfiles + 1
          errors := job.errors ++ [profile.linkedin_url ++ ": " ++ errMsg] }
  { job with processedProfiles := job.processedProfiles + 1 }

/-- The `for` loop of `processScrapingJob` over profiles paired with their
scrape outcomes and random draws. -/
def processLoop (job : Job) : List (ProfileInput × FetchResult × Fin 4) → Job
  | [] => job
  | (p, o, r) :: rest => processLoop (processItem job p o r) rest

/-- `processScrapingJob` from `server/index.js`: run the loop over every
profile (outcomes are the oracle for the scraper effects), then mark the job
completed and clear `currentProfile`.  The outer `catch` (whole-job abort to
`failed`) is unreachable in this pure model, where every per-item outcome is
covered by the success/failure taxonomy. -/
def processScrapingJob (job : Job) (outcomes : List (FetchResult × Fin 4)) :
    Job :=
  { processLoop job (job.profiles.zip outcomes) with
    status := .completed, currentProfile := none }

/-! ## `server/index.js`: endpoints -/

/-- One row delivered by the CSV parser; a missing `linkedin_url` column is
modelled as the empty string (both are JS-falsy). -/
structure CsvRow where
  name : String
  linkedin_url : String
deriving DecidableEq, Repr

/-- The row filter of the upload endpoint: keep rows with a truthy
`linkedin_url`, trimming the URL and defaulting the name. -/
def parseProfiles (rows : List CsvRow) : List ProfileInput :=
  rows.filterMap (fun row =>
    if row.linkedin_url = "" then none
    else some ⟨row.name, jsTrim row.linkedin_url⟩)

/-- The upload endpoint (`POST /api/upload`) after a successful CSV parse:
always responds `{jobId, totalProfiles}` and registers a pending job.  The
only error responses in the source are a missing file and a CSV parse
failure, both outside this model. -/
def uploadCommand (rows : List CsvRow) : Except String (Job × Nat) :=
  let profiles := parseProfiles rows
  .ok (mkJob profiles, profiles.length)

/-- The run-job endpoint (`POST /api/scrape`): `job?` is the result of the
registry lookup `jobs.get(jobId)`.  An absent job yields the 404 error; any
present job has its status set to `running` (processing is then restarted in
the background). -/
def scrapeCommand (job? : Option Job) : Except String Job :=
  match job? with
  | none => .error "Job not found"
  | some job => .ok { job with status := .running }

/-! ## Helper lemmas -/

theorem length_jsTake (s : String) (n : Nat) :
    (jsTake s n).length = min n s.length := by
  show (s.data.take n).length = min n s.length
  exact List.length_take n s.data

theorem ne_empty_of_length_pos (s : String) (h : 0 < s.length) : s ≠ "" := by
  intro he
  subst he
  simp at h

theorem joinSep_length_le (sep : String) (m : Nat) :
    ∀ l : List String, (∀ s ∈ l, s.length ≤ m) →
      (joinSep sep l).length ≤ (m + sep.length) * l.length
  | [], _ => by simp [joinSep]
  | [a], h => by
      have ha := h a (by simp)
      simp only [joinSep, List.length_singleton, Nat.mul_one]
      omega
  | a :: b :: rest, h => by
      have ih := joinSep_length_le sep m (b :: rest)
        (fun s hs => h s (List.mem_cons_of_mem a hs))
      have ha := h a (List.mem_cons_self a _)
      have hexp : (m + sep.length) * ((a :: b :: rest).length)
          = (m + sep.length) * ((b :: rest).length) + (m + sep.length) := by
        simp [List.length_cons]
        ring
      simp only [joinSep, String.length_append]
      omega

theorem keywords_length_le : ∀ s ∈ keywords, s.length ≤ 20 := by decide

theorem industries_length_le : ∀ s ∈ industries, s.length ≤ 18 := by decide

theorem skills_length_le : ∀ s ∈ skills, s.length ≤ 18 := by decide

theorem extractKeywords_join_le (t : String) :
    (joinSep ", " (extractKeywords t)).length ≤ 66 := by
  by_cases h : 0 < (keywords.filter (fun k => containsCI t k)).length
  · rw [show extractKeywords t = (keywords.filter (fun k => containsCI t k)).take 3
      from by simp [extractKeywords, h]]
    have helems : ∀ s ∈ (keywords.filter (fun k => containsCI t k)).take 3,
        s.length ≤ 20 := by
      intro s hs
      exact keywords_length_le s (List.mem_of_mem_filter (List.take_subset _ _ hs))
    have hlen : ((keywords.filter (fun k => containsCI t k)).take 3).length ≤ 3 :=
      List.length_take_le _ _
    have hj := joinSep_length_le ", " 20 _ helems
    have hsep : (", " : String).length = 2 := rfl
    rw [hsep] at hj
    omega
  · rw [show extractKeywords t = ["business", "professional development"]
      from by simp [extractKeywords, h]]
    decide

theorem extractSkills_join_le (t : String) :
    (joinSep ", " (extractSkills t)).length ≤ 40 := by
  by_cases h : 0 < (skills.filter (fun k => containsCI t k)).length
  · rw [show extractSkills t = (skills.filter (fun k => containsCI t k)).take 2
      from by simp [extractSkills, h]]
    have helems : ∀ s ∈ (skills.filter (fun k => containsCI t k)).take 2,
        s.length ≤ 18 := by
      intro s hs
      exact skills_length_le s (List.mem_of_mem_filter (List.take_subset _ _ hs))
    have hlen : ((skills.filter (fun k => containsCI t k)).take 2).length ≤ 2 :=
      List.length_take_le _ _
    have hj := joinSep_length_le ", " 18 _ helems
    have hsep : (", " : String).length = 2 := rfl
    rw [hsep] at hj
    omega
  · rw [show extractSkills t = ["leadership", "strategy"]
      from by simp [extractSkills, h]]
    decide

theorem extractIndustryTerms_length_le (t : String) :
    (extractIndustryTerms t).length ≤ 18 := by
  unfold extractIndustryTerms
  cases h : industries.find? (fun k => containsCI t k) with
  | none =>
      simp only [h, Option.getD_none]
      decide
  | some a =>
      simp only [h, Option.getD_some]
      exact industries_length_le a (List.mem_of_find?_eq_some h)

/-! ## Claim theorems: summarizer -/

/-- C4: for every input text and every random template draw, the
output of the summarizer has length at most 150 characters.  No code path of
`generateSummary` produces text longer than the bound, so the spec clause that truncates
over-long output to 147 characters plus an ellipsis for over-long backend output is
vacuously satisfied: the candidate outputs of the mock backend are bounded by
construction and no truncation ever occurs. -/
theorem generateSummary_length_le (t : String) (r : Fin 4) :
    (generateSummary t r).length ≤ 150 := by
  unfold generateSummary
  split
  · decide
  · obtain ⟨rv, hr⟩ := r
    interval_cases rv
    · have he : summaryTemplate t ⟨0, hr⟩
          = "Experienced professional with expertise in "
            ++ joinSep ", " (extractKeywords t) ++ "." := rfl
      rw [he, String.length_append, String.length_append]
      have h1 := extractKeywords_join_le t
      have h2 : ("Experienced professional with expertise in " : String).length
          = 43 := rfl
      have h3 : ("." : String).length = 1 := rfl
      omega
    · have he : summaryTemplate t ⟨1, hr⟩
          = jsTake (firstSentence t) 80
            ++ "... with proven track record in their industry." := rfl
      rw [he, String.length_append, length_jsTake]
      have h1 : min 80 (firstSentence t).length ≤ 80 := Nat.min_le_left _ _
      have h2 : ("... with proven track record in their industry." :
          String).length = 47 := rfl
      omega
    · have he : summaryTemplate t ⟨2, hr⟩
          = "Professional with strong background in "
            ++ extractIndustryTerms t ++ " and leadership experience." := rfl
      rw [he, String.length_append, String.length_append]
      have h1 := extractIndustryTerms_length_le t
      have h2 : ("Professional with strong background in " : String).length
          = 39 := rfl
      have h3 : (" and leadership experience." : String).length = 27 := rfl
      omega
    · have he : summaryTemplate t ⟨3, hr⟩
          = "Accomplished individual with experience in "
            ++ joinSep ", " (extractSkills t) ++ " and strategic thinking." := rfl
      rw [he, String.length_append, String.length_append]
      have h1 := extractSkills_join_le t
      have h2 : ("Accomplished individual with experience in " : String).length
          = 43 := rfl
      have h3 : (" and strategic thinking." : String).length = 24 := rfl
      omega

/-- C9: the summarizer is total (the Lean model is a total function, as the
source wraps everything in `try/catch`) and always returns a non-empty
string; for input below the 10-character informativeness threshold it
returns the fixed generic sentence, on a branch taken before any further
processing. -/
theorem generateSummary_nonempty_generic (t : String) (r : Fin 4) :
    generateSummary t r ≠ "" ∧
    (t.length < 10 →
      generateSummary t r = "Professional with experience in their field.") := by
  constructor
  · apply ne_empty_of_length_pos
    unfold generateSummary
    split
    · decide
    · obtain ⟨rv, hr⟩ := r
      interval_cases rv
      · have he : summaryTemplate t ⟨0, hr⟩
            = "Experienced professional with expertise in "
              ++ joinSep ", " (extractKeywords t) ++ "." := rfl
        rw [he, String.length_append, String.length_append]
        have h2 : ("Experienced professional with expertise in " :
            String).length = 43 := rfl
        omega
      · have he : summaryTemplate t ⟨1, hr⟩
            = jsTake (firstSentence t) 80
              ++ "... with proven track record in their industry." := rfl
        rw [he, String.length_append]
        have h2 : ("... with proven track record in their industry." :
            String).length = 47 := rfl
        omega
      · have he : summaryTemplate t ⟨2, hr⟩
            = "Professional with strong background in "
              ++ extractIndustryTerms t ++ " and leadership experience." := rfl
        rw [he, String.length_append, String.length_append]
        have h2 : ("Professional with strong background in " : String).length
            = 39 := rfl
        omega
      · have he : summaryTemplate t ⟨3, hr⟩
            = "Accomplished individual with experience in "
              ++ joinSep ", " (extractSkills t) ++ " and strategic thinking." := rfl
        rw [he, String.length_append, String.length_append]
        have h2 : ("Accomplished individual with experience in " :
            String).length = 43 := rfl
        omega
  · intro h
    unfold generateSummary
    rw [if_pos h]
    rfl

/-- Witness for C9 at the empty about-text. -/
theorem generateSummary_nonempty_generic_witness :
    ("" : String).length < 10 ∧
    generateSummary "" 0 = "Professional with experience in their field." :=
  ⟨by decide, (generateSummary_nonempty_generic "" 0).2 (by decide)⟩

/-- C6 counterexample: with the backend unavailable (the shipped code is
entirely the offline mock), two runs of the summarizer on the same input can
return different strings, because `Math.random()` picks one of four
templates.  Draws 0 and 1 on this input produce distinct outputs. -/
theorem generateSummary_random_counterexample :
    generateSummary
        "Long experience in management and strategy roles everywhere." 0
      ≠ generateSummary
        "Long experience in management and strategy roles everywhere." 1 := by
  decide

/-- C6 amended: the fallback summarizer is deterministic only relative to
the random template draw — two runs with the same input and the same draw
agree, and for inputs below the 10-character threshold the output is the
fixed sentence regardless of the draw. -/
theorem generateSummary_deterministic (t : String) (r₁ r₂ : Fin 4) :
    (r₁ = r₂ → generateSummary t r₁ = generateSummary t r₂) ∧
    (t.length < 10 → generateSummary t r₁ = generateSummary t r₂) := by
  constructor
  · intro h
    rw [h]
  · intro h
    unfold generateSummary
    rw [if_pos h, if_pos h]

/-- Witness for the amended C6 at a short input and distinct draws. -/
theorem generateSummary_deterministic_witness :
    ("brief" : String).length < 10 ∧
    generateSummary "brief" 0 = generateSummary "brief" 1 :=
  ⟨by decide, (generateSummary_deterministic "brief" 0 1).2 (by decide)⟩

/-! ## Claim theorems: extractor -/

/-- C5 counterexample: on a title text with two occurrences of the literal
separator, the JS split at index 1 in the code yields only the segment between the
first and second occurrences, not the entire remainder after the first
separator as the claim states. -/
theorem extractTitleCompany_counterexample :
    extractTitleCompany "Engineer at Acme at Kuala Lumpur"
      = ("Engineer", "Acme") ∧
    (extractTitleCompany "Engineer at Acme at Kuala Lumpur").2
      ≠ "Acme at Kuala Lumpur" := by
  constructor
  · decide
  · decide

/-- C5 amended: the extractor splits the combined text at every occurrence
of the literal separator; the title is the trimmed text before the first
occurrence and the company is the trimmed segment between the first and
second occurrences (not the entire remainder).  Text without the separator
becomes the title unchanged, with the company left empty. -/
theorem extractTitleCompany_spec (t : String) :
    (∀ a b rest, jsSplit " at " t = a :: b :: rest →
      extractTitleCompany t = (jsTrim a, jsTrim b)) ∧
    ((jsSplit " at " t).length ≤ 1 → extractTitleCompany t = (t, "")) := by
  constructor
  · intro a b rest h
    simp [extractTitleCompany, h]
  · intro h
    cases hs : jsSplit " at " t with
    | nil => simp [extractTitleCompany, hs]
    | cons a tl =>
        cases tl with
        | nil => simp [extractTitleCompany, hs]
        | cons b tl2 =>
            rw [hs] at h
            simp at h

/-- Witness for the amended C5 on a single-separator and a no-separator
title. -/
theorem extractTitleCompany_spec_witness :
    extractTitleCompany "Product Manager at Google"
      = ("Product Manager", "Google") ∧
    extractTitleCompany "Freelance Designer" = ("Freelance Designer", "") := by
  constructor
  · exact (extractTitleCompany_spec "Product Manager at Google").1
      "Product Manager" "Google" [] (by decide)
  · exact (extractTitleCompany_spec "Freelance Designer").2 (by decide)

/-- C10: every education entry the extractor emits has trimmed source text
longer than 10 characters (shorter matches are dropped as noise) and the
emitted entry is the 200-character truncation of that text, so its length
lies strictly above 10 and at most 200. -/
theorem extractEducation_bounds (texts : List String) (e : String)
    (he : e ∈ extractEducation texts) :
    10 < e.length ∧ e.length ≤ 200 ∧
    ∃ s ∈ texts, 10 < (jsTrim s).length ∧ e = jsTake (jsTrim s) 200 := by
  unfold extractEducation at he
  rw [List.mem_filterMap] at he
  obtain ⟨s, hs, hsome⟩ := he
  by_cases hc : (!(jsTrim s).isEmpty && decide (10 < (jsTrim s).length)) = true
  · rw [if_pos hc] at hsome
    have h10 : 10 < (jsTrim s).length := by
      have := (Bool.and_eq_true _ _).mp hc
      exact of_decide_eq_true this.2
    obtain rfl : jsTake (jsTrim s) 200 = e := Option.some.inj hsome
    refine ⟨?_, ?_, s, hs, h10, rfl⟩
    · rw [length_jsTake]
      omega
    · rw [length_jsTake]
      omega
  · rw [if_neg hc] at hsome
    exact absurd hsome (by simp)

/-- Witness for C10 on a concrete education element. -/
theorem extractEducation_bounds_witness :
    10 < ("MBA, Asian School of Business" : String).length ∧
    ("MBA, Asian School of Business" : String).length ≤ 200 := by
  have h := extractEducation_bounds ["  MBA, Asian School of Business  "]
    "MBA, Asian School of Business" (by decide)
  exact ⟨h.1, h.2.1⟩

/-! ## Claim theorems: URL validator -/

/-- C7: the validator is a total Boolean function (never raises); it returns
`false` on any input the URL parser rejects, on any parsed URL whose host is
not exactly `www.linkedin.com`, and on any parsed URL whose path is no
longer than the bare profile prefix `/in/` (4 characters), which covers bare
domain URLs (path `/`) and the bare prefix itself. -/
theorem isValidLinkedInUrl_spec (url : String) :
    (parseURL url = none → isValidLinkedInUrl url = false) ∧
    (∀ u, parseURL url = some u → u.hostname ≠ "www.linkedin.com" →
      isValidLinkedInUrl url = false) ∧
    (∀ u, parseURL url = some u → u.pathname.length ≤ 4 →
      isValidLinkedInUrl url = false) := by
  refine ⟨?_, ?_, ?_⟩
  · intro h
    simp [isValidLinkedInUrl, h]
  · intro u hu hne
    simp [isValidLinkedInUrl, hu, hne]
  · intro u hu hlen
    have : ¬ (4 < u.pathname.length) := by omega
    simp [isValidLinkedInUrl, hu, this]

/-- Witness for C7: a syntactically malformed input, a wrong-host URL, and a
bare-prefix URL are all rejected. -/
theorem isValidLinkedInUrl_spec_witness :
    isValidLinkedInUrl "linkedin profile" = false ∧
    isValidLinkedInUrl "https://example.com/in/jane" = false ∧
    isValidLinkedInUrl "https://www.linkedin.com/in/" = false := by
  refine ⟨?_, ?_, ?_⟩
  · exact (isValidLinkedInUrl_spec "linkedin profile").1 (by decide)
  · exact (isValidLinkedInUrl_spec "https://example.com/in/jane").2.1
      ⟨"https", "example.com", "/in/jane"⟩ (by decide) (by decide)
  · exact (isValidLinkedInUrl_spec "https://www.linkedin.com/in/").2.2
      ⟨"https", "www.linkedin.com", "/in/"⟩ (by decide) (by decide)

/-! ## Claim theorems: job controller -/

theorem processItem_processed (job : Job) (p : ProfileInput)
    (o : FetchResult) (r : Fin 4) :
    (processItem job p o r).processedProfiles = job.processedProfiles + 1 := by
  cases o <;> rfl

theorem processItem_success_failed (job : Job) (p : ProfileInput)
    (o : FetchResult) (r : Fin 4) :
    (processItem job p o r).successfulProfiles
        + (processItem job p o r).failedProfiles
      = job.successfulProfiles + job.failedProfiles + 1 := by
  cases o <;> simp [processItem] <;> omega

theorem processLoop_counts (items : List (ProfileInput × FetchResult × Fin 4)) :
    ∀ job : Job,
      (processLoop job items).processedProfiles
          = job.processedProfiles + items.length ∧
      (processLoop job items).successfulProfiles
            + (processLoop job items).failedProfiles
          = job.successfulProfiles + job.failedProfiles + items.length := by
  induction items with
  | nil =>
      intro job
      simp [processLoop]
  | cons hd tl ih =>
      intro job
      obtain ⟨p, o, r⟩ := hd
      have h := ih (processItem job p o r)
      have hp := processItem_processed job p o r
      have hsf := processItem_success_failed job p o r
      simp only [processLoop, List.length_cons]
      omega

/-- C1: starting from a freshly created job, running the controller over all
of its URLs (with any per-item outcomes and random draws, one per URL)
reaches the terminal `completed` state with `processedCount = successCount +
failureCount = number of input URLs`: each item increments exactly one of
the success/failure counters and always increments the processed counter. -/
theorem job_counts_partition (profiles : List ProfileInput)
    (outcomes : List (FetchResult × Fin 4))
    (hlen : outcomes.length = profiles.length) (_hne : profiles ≠ []) :
    (processScrapingJob (mkJob profiles) outcomes).status
        = JobStatus.completed ∧
    (processScrapingJob (mkJob profiles) outcomes).processedProfiles
        = (processScrapingJob (mkJob profiles) outcomes).successfulProfiles
          + (processScrapingJob (mkJob profiles) outcomes).failedProfiles ∧
    (processScrapingJob (mkJob profiles) outcomes).processedProfiles
        = profiles.length := by
  have hz : ((mkJob profiles).profiles.zip outcomes).length = profiles.length := by
    show (profiles.zip outcomes).length = profiles.length
    rw [List.length_zip, hlen, Nat.min_self]
  have h := processLoop_counts ((mkJob profiles).profiles.zip outcomes)
    (mkJob profiles)
  have hmk : (mkJob profiles).processedProfiles = 0 ∧
      (mkJob profiles).successfulProfiles = 0 ∧
      (mkJob profiles).failedProfiles = 0 := ⟨rfl, rfl, rfl⟩
  have e1 : (processScrapingJob (mkJob profiles) outcomes).processedProfiles
      = (processLoop (mkJob profiles)
          ((mkJob profiles).profiles.zip outcomes)).processedProfiles := rfl
  have e2 : (processScrapingJob (mkJob profiles) outcomes).successfulProfiles
      = (processLoop (mkJob profiles)
          ((mkJob profiles).profiles.zip outcomes)).successfulProfiles := rfl
  have e3 : (processScrapingJob (mkJob profiles) outcomes).failedProfiles
      = (processLoop (mkJob profiles)
          ((mkJob profiles).profiles.zip outcomes)).failedProfiles := rfl
  refine ⟨rfl, ?_, ?_⟩ <;> omega

/-- Witness for C1 on a one-URL job with a failing fetch. -/
theorem job_counts_partition_witness :
    ([(FetchResult.failure "navigation timeout", (0 : Fin 4))].length
        = [ProfileInput.mk "Jane" "https://www.linkedin.com/in/jane"].length) ∧
    ([ProfileInput.mk "Jane" "https://www.linkedin.com/in/jane"]
        ≠ ([] : List ProfileInput)) ∧
    ((processScrapingJob
        (mkJob [ProfileInput.mk "Jane" "https://www.linkedin.com/in/jane"])
        [(FetchResult.failure "navigation timeout", (0 : Fin 4))]).status
      = JobStatus.completed ∧
    (processScrapingJob
        (mkJob [ProfileInput.mk "Jane" "https://www.linkedin.com/in/jane"])
        [(FetchResult.failure "navigation timeout", (0 : Fin 4))]).processedProfiles
      = (processScrapingJob
          (mkJob [ProfileInput.mk "Jane" "https://www.linkedin.com/in/jane"])
          [(FetchResult.failure "navigation timeout", (0 : Fin 4))]).successfulProfiles
        + (processScrapingJob
            (mkJob [ProfileInput.mk "Jane" "https://www.linkedin.com/in/jane"])
            [(FetchResult.failure "navigation timeout", (0 : Fin 4))]).failedProfiles ∧
    (processScrapingJob
        (mkJob [ProfileInput.mk "Jane" "https://www.linkedin.com/in/jane"])
        [(FetchResult.failure "navigation timeout", (0 : Fin 4))]).processedProfiles
      = [ProfileInput.mk "Jane" "https://www.linkedin.com/in/jane"].length) :=
  ⟨rfl, by decide, job_counts_partition _ _ rfl (by decide)⟩

/-- C2 counterexample: a one-URL job whose fetch fails ends with one entry
in the results sequence, a record with `status = "failed"` — the failing
item does contribute a ProfileRecord, contradicting the claim that no
record is appended for it. -/
theorem failure_appends_record_counterexample :
    (processScrapingJob
        (mkJob [ProfileInput.mk "Jane" "https://www.linkedin.com/in/jane"])
        [(FetchResult.failure "timeout", (0 : Fin 4))]).results.length = 1 ∧
    ((processScrapingJob
        (mkJob [ProfileInput.mk "Jane" "https://www.linkedin.com/in/jane"])
        [(FetchResult.failure "timeout", (0 : Fin 4))]).results.map
          (fun rec => rec.status)) = ["failed"] := by
  constructor
  · rfl
  · rfl

/-- C2 amended: for every URL whose fetch fails, the controller appends the
formatted `url: reason` string to the errors list of the job, increments
`failedProfiles` while leaving `successfulProfiles` unchanged, increments
`processedProfiles`, appends a ProfileRecord with `status = "failed"` and
the error message (empty data fields) to the results sequence, and then
continues with the remaining URLs. -/
theorem processItem_failure_spec (job : Job) (p : ProfileInput)
    (msg : String) (r : Fin 4) :
    processItem job p (FetchResult.failure msg) r =
      { job with
        currentProfile := some (jsOr p.name p.linkedin_url)
        results := job.results ++ [failedRecord p msg]
        failedProfiles := job.failedProfiles + 1
        errors := job.errors ++ [p.linkedin_url ++ ": " ++ msg]
        processedProfiles := job.processedProfiles + 1 } ∧
    ∀ rest, processLoop job ((p, FetchResult.failure msg, r) :: rest)
      = processLoop (processItem job p (FetchResult.failure msg) r) rest :=
  ⟨rfl, fun _ => rfl⟩

/-- C3 counterexample: the run-job command applied to a job that is already
`completed` is not rejected — it succeeds and sets the status back to
`running`, mutating the job state. -/
theorem scrapeCommand_completed_counterexample :
    scrapeCommand (some { mkJob [] with status := JobStatus.completed })
      = Except.ok { mkJob [] with status := JobStatus.running } := rfl

/-- C3 amended: the run-job command is rejected (404 error) only when the
job id is absent from the registry; any present job — pending, running,
completed or failed alike — is unconditionally set to `running` (and
processing is restarted in the background). -/
theorem scrapeCommand_spec (job? : Option Job) :
    (job? = none → scrapeCommand job? = Except.error "Job not found") ∧
    (∀ job, job? = some job →
      scrapeCommand job? = Except.ok { job with status := JobStatus.running }) := by
  constructor
  · intro h
    subst h
    rfl
  · intro job h
    subst h
    rfl

/-- Witness for the amended C3 at an absent and a present job. -/
theorem scrapeCommand_spec_witness :
    scrapeCommand none = Except.error "Job not found" ∧
    scrapeCommand (some (mkJob []))
      = Except.ok { mkJob [] with status := JobStatus.running } :=
  ⟨(scrapeCommand_spec none).1 rfl,
   (scrapeCommand_spec (some (mkJob []))).2 (mkJob []) rfl⟩

/-- C8 counterexample: the upload endpoint accepts an input in which zero
rows carry a URL, answering success with count 0 instead of rejecting; and
it applies no URL-shape validation at all — a row whose URL fails
`isValidLinkedInUrl` is still counted. -/
theorem uploadCommand_counterexample :
    uploadCommand [CsvRow.mk "Alice" ""] = Except.ok (mkJob [], 0) ∧
    uploadCommand [CsvRow.mk "" "notaurl"]
      = Except.ok (mkJob [ProfileInput.mk "" "notaurl"], 1) ∧
    isValidLinkedInUrl "notaurl" = false := by
  refine ⟨rfl, rfl, by decide⟩

/-- C8 amended: job creation always succeeds (after a successful CSV parse),
returning a pending job together with the count of rows that carry a
non-empty `linkedin_url` field; no URL validation is applied and a zero
count is not rejected. -/
theorem uploadCommand_spec (rows : List CsvRow) :
    ∃ job n, uploadCommand rows = Except.ok (job, n) ∧
      n = (rows.filter (fun row => row.linkedin_url != "")).length ∧
      job.status = JobStatus.pending ∧
      job.totalProfiles = n ∧
      job.processedProfiles = 0 ∧
      job.results = [] := by
  refine ⟨mkJob (parseProfiles rows), (parseProfiles rows).length, rfl, ?_,
    rfl, rfl, rfl, rfl⟩
  induction rows with
  | nil => rfl
  | cons row tl ih =>
      by_cases h : row.linkedin_url = ""
      · simpa [parseProfiles, List.filterMap_cons, List.filter_cons, h]
          using ih
      · simpa [parseProfiles, List.filterMap_cons, List.filter_cons, h]
          using ih

end AsbHive
